import Mathlib

/-!
# Order service (`src/main.go`): a shallow embedding

The service maps five HTTP operations onto SQL statements run against a
relational store with two tables, `orders` and `items`.  The handlers of
`main.go` are embedded as pure functions over an explicit `Store`; every call
into `database/sql` may fail, which is decided by an explicit environment
`Env` (one per request).

The relational store itself is not part of the repository.  It is modelled
here as the collaborator the service relies on: two tables holding the
inserted values unchanged, `AUTO_INCREMENT` identifiers, a foreign key from
`items.order_id` to `orders.id`, and transactions that are committed or
rolled back as a unit.  The `:id` path parameter is taken to denote an
integer.
-/

set_option autoImplicit false

namespace OrderService

/-! ## Data model -/

/-- Go struct `Item` (`main.go`, lines 51-59). -/
structure Item where
  ID : Int
  Name : String
  Description : String
  Quantity : Int
  OrderID : Int
  CreatedAt : String
  UpdatedAt : String
deriving DecidableEq

/-- Go struct `Order` (`main.go`, lines 42-48). -/
structure Order where
  ID : Int
  CustomerName : String
  OrderedAt : String
  UpdatedAt : String
  Items : List Item
deriving DecidableEq

/-- The zero value of `Item`, as produced by `var item Item`. -/
def Item.zero : Item :=
  { ID := 0, Name := "", Description := "", Quantity := 0, OrderID := 0,
    CreatedAt := "", UpdatedAt := "" }

/-- The zero value of `Order`, as produced by `var order Order`. -/
def Order.zero : Order :=
  { ID := 0, CustomerName := "", OrderedAt := "", UpdatedAt := "", Items := [] }

/-- A row of table `orders`: the columns the service reads and writes. -/
structure OrderRow where
  id : Int
  customer_name : String
  ordered_at : String
deriving DecidableEq

/-- A row of table `items`: the columns the service reads and writes. -/
structure ItemRow where
  id : Int
  name : String
  description : String
  quantity : Int
  order_id : Int
deriving DecidableEq

/-- The relational store: both tables in their natural row order, and the
`AUTO_INCREMENT` counter of each table. -/
structure Store where
  orders : List OrderRow
  items : List ItemRow
  nextOrderId : Int
  nextItemId : Int
deriving DecidableEq

/-- The rows of the store, which is what any query can observe; the
`AUTO_INCREMENT` counters are not part of it. -/
def Store.visible (s : Store) : List OrderRow × List ItemRow :=
  (s.orders, s.items)

/-- The empty store of a fresh schema. -/
def Store.empty : Store :=
  { orders := [], items := [], nextOrderId := 1, nextItemId := 1 }

/-! ## SQL statements issued through `tx.Exec` -/

/-- The five statements the handlers execute inside a transaction. -/
inductive Stmt where
  /-- Statement `INSERT INTO orders (customer_name, ordered_at) VALUES (?, ?)`. -/
  | insertOrder (customerName orderedAt : String)
  /-- Statement `INSERT INTO items (name, description, quantity, order_id) VALUES (?, ?, ?, ?)`. -/
  | insertItem (name description : String) (quantity : Int) (orderId : Int)
  /-- Statement `UPDATE orders SET customer_name = ?, ordered_at = ? WHERE id = ?`. -/
  | updateOrder (customerName orderedAt : String) (id : Int)
  /-- Statement `DELETE FROM items WHERE order_id = ?`. -/
  | deleteItems (orderId : Int)
  /-- Statement `DELETE FROM orders WHERE id = ?`. -/
  | deleteOrder (id : Int)
deriving DecidableEq

/-- The text of the error the store raises for a foreign-key violation. -/
def fkError : String := "foreign key constraint fails"

/-- Modelled from the spec: the relational store is an external collaborator
and its schema is not in the repository; it provides "auto-incrementing
identifier generation retrievable after insert, and foreign-key constraint
enforcement between items and orders".  This is the effect of one statement on
the store; the result carries the value `LastInsertId` reports.  Inserting an
item whose `order_id` matches no order row, and deleting an order row that item
rows still reference, violate the foreign key.  Columns hold the inserted
values unchanged. -/
def Store.run (s : Store) : Stmt → Except String (Store × Int)
  | .insertOrder customerName orderedAt =>
    .ok ({ s with
            orders := s.orders ++ [{ id := s.nextOrderId, customer_name := customerName,
                                     ordered_at := orderedAt }],
            nextOrderId := s.nextOrderId + 1 }, s.nextOrderId)
  | .insertItem name description quantity orderId =>
    if s.orders.any (fun o => o.id == orderId) then
      .ok ({ s with
              items := s.items ++ [{ id := s.nextItemId, name := name,
                                     description := description, quantity := quantity,
                                     order_id := orderId }],
              nextItemId := s.nextItemId + 1 }, s.nextItemId)
    else .error fkError
  | .updateOrder customerName orderedAt id =>
    .ok ({ s with
            orders := s.orders.map (fun o =>
              if o.id = id then { o with customer_name := customerName, ordered_at := orderedAt }
              else o) }, 0)
  | .deleteItems orderId =>
    .ok ({ s with items := s.items.filter (fun i => i.order_id != orderId) }, 0)
  | .deleteOrder id =>
    if s.items.any (fun i => i.order_id == id) then .error fkError
    else .ok ({ s with orders := s.orders.filter (fun o => o.id != id) }, 0)

/-! ## Failures of the database layer -/

/-- What can go wrong while the rows of a query are read.  A failure at
position `k` concerns the row with 0-based index `k` of the result. -/
inductive RowsFault where
  /-- Reading the rows meets no error. -/
  | none
  /-- Call `Scan` on row `k` returns the error `e`. -/
  | scanFails (k : Nat) (e : String)
  /-- Call `Next` returns false instead of delivering row `k`, and `Err()` then
  holds the error `e`. -/
  | iterFails (k : Nat) (e : String)
deriving DecidableEq

/-- Whether `Next` returns false, because of an error, instead of delivering row `k`. -/
def RowsFault.stopsAt : RowsFault → Nat → Bool
  | .iterFails j _, k => j == k
  | _, _ => false

/-- The error `Scan` returns on row `k`, if any. -/
def RowsFault.scanErr : RowsFault → Nat → Option String
  | .scanFails j e, k => if j = k then some e else Option.none
  | _, _ => Option.none

/-- The fate of one query: `issue` is the error returned by `db.Query` itself,
`rows` what happens while its rows are read. -/
structure QueryEnv where
  issue : Option String
  rows : RowsFault

/-- The database layer as one request meets it: for every call into
`database/sql`, the error it returns for reasons outside the data (`none`:
the call goes through).  `exec k` is for the `k`-th `tx.Exec` of the request,
`query k` for its `k`-th query, both counted from 0. -/
structure Env where
  begin : Option String
  exec : Nat → Option String
  lastInsertId : Option String
  commit : Option String
  query : Nat → QueryEnv

/-- The environment in which no call into the database layer fails. -/
def Env.ok : Env :=
  { begin := none, exec := fun _ => none, lastInsertId := none, commit := none,
    query := fun _ => { issue := none, rows := .none } }

/-! ## Transactions -/

/-- The calls a transactional handler makes into `database/sql`. -/
inductive DbCall where
  | begin
  | exec (stmt : Stmt)
  | lastInsertId
  | commit
  | rollback
deriving DecidableEq

/-- One call into the database layer and whether it returned an error. -/
structure DbEvent where
  call : DbCall
  failed : Bool
deriving DecidableEq

/-- An open transaction (`*sql.Tx`): `committed` holds the rows every other
connection sees, `cur` the rows as seen inside the transaction, `n` counts the
statements executed so far and `log` records the calls made. -/
structure Tx where
  committed : Store
  cur : Store
  n : Nat
  log : List DbEvent

/-- Call `db.Begin()`. -/
def dbBegin (env : Env) (s : Store) : Except String Tx :=
  match env.begin with
  | some e => .error e
  | none => .ok { committed := s, cur := s, n := 0, log := [⟨.begin, false⟩] }

/-- Call `tx.Exec(stmt)`: the statement fails when the environment says so or
when the store rejects it; a failed statement changes nothing.  On success the
result is the `LastInsertId` of the statement. -/
def Tx.exec (env : Env) (tx : Tx) (stmt : Stmt) : Tx × Except String Int :=
  match env.exec tx.n with
  | some e => ({ tx with n := tx.n + 1, log := tx.log ++ [⟨.exec stmt, true⟩] }, .error e)
  | none =>
    match tx.cur.run stmt with
    | .error e => ({ tx with n := tx.n + 1, log := tx.log ++ [⟨.exec stmt, true⟩] }, .error e)
    | .ok (s', id) =>
      ({ tx with cur := s', n := tx.n + 1, log := tx.log ++ [⟨.exec stmt, false⟩] }, .ok id)

/-- Call `result.LastInsertId()` on the result `id` of an insert. -/
def Tx.lastInsertId (env : Env) (tx : Tx) (id : Int) : Tx × Except String Int :=
  match env.lastInsertId with
  | some e => ({ tx with log := tx.log ++ [⟨.lastInsertId, true⟩] }, .error e)
  | none => ({ tx with log := tx.log ++ [⟨.lastInsertId, false⟩] }, .ok id)

/-- Modelled from the spec: the store supports "transactional execution of
sequential statements with commit/rollback".  This is the call
`tx.Rollback()`: the rows written inside the transaction are discarded (the
error `Rollback` may return is ignored by every caller, and the store discards
an abandoned transaction in any case).  The `AUTO_INCREMENT` counters are not
transactional and keep their values. -/
def Tx.rollback (tx : Tx) : Tx :=
  { tx with
      cur := { tx.cur with orders := tx.committed.orders, items := tx.committed.items },
      log := tx.log ++ [⟨.rollback, false⟩] }

/-- Modelled from the spec: a transaction is "a unit of one or more statements
committed or rolled back atomically".  This is the call `tx.Commit()`: on
success the rows written inside the transaction become the committed rows; a
commit that returns an error commits nothing. -/
def Tx.commit (env : Env) (tx : Tx) : Tx × Except String Unit :=
  match env.commit with
  | some e =>
    ({ tx with
        cur := { tx.cur with orders := tx.committed.orders, items := tx.committed.items },
        log := tx.log ++ [⟨.commit, true⟩] }, .error e)
  | none => ({ tx with committed := tx.cur, log := tx.log ++ [⟨.commit, false⟩] }, .ok ())

/-- The store as the handler leaves it: the committed rows, and the counters
as advanced inside the transaction. -/
def Tx.settled (tx : Tx) : Store :=
  { orders := tx.committed.orders, items := tx.committed.items,
    nextOrderId := tx.cur.nextOrderId, nextItemId := tx.cur.nextItemId }

/-! ## HTTP responses -/

/-- Constant `http.StatusOK`. -/
abbrev StatusOK : Nat := 200
/-- Constant `http.StatusBadRequest`. -/
abbrev StatusBadRequest : Nat := 400
/-- Constant `http.StatusInternalServerError`. -/
abbrev StatusInternalServerError : Nat := 500

/-- The JSON bodies the handlers send. -/
inductive Body where
  /-- Body `gin.H{"message": m}`. -/
  | message (m : String)
  /-- Body `gin.H{"error": m}`. -/
  | error (m : String)
  /-- A single `Order`. -/
  | order (o : Order)
  /-- A slice of `Order`. -/
  | orders (os : List Order)
deriving DecidableEq

/-- What `c.JSON(status, body)` sends. -/
structure Response where
  status : Nat
  body : Body
deriving DecidableEq

/-- Whether the body has the form `{"error": <message>}`. -/
def Body.isError : Body → Bool
  | .error _ => true
  | _ => false

/-- The result of a transactional handler: the response sent, the store it
leaves behind, and the calls it made into the database layer. -/
structure Outcome where
  resp : Response
  store : Store
  log : List DbEvent

/-- A response sent while transaction `tx` is (or was) in progress. -/
def Tx.respond (tx : Tx) (status : Nat) (body : Body) : Outcome :=
  { resp := ⟨status, body⟩, store := tx.settled, log := tx.log }

/-- The response sent when `db.Begin()` returned the error `e`: no
transaction exists and the store is as before. -/
def beginFailed (s : Store) (e : String) : Outcome :=
  { resp := ⟨StatusInternalServerError, .error e⟩, store := s, log := [⟨.begin, true⟩] }

/-! ## The handlers -/

/-- The loop `for _, item := range order.Items { tx.Exec("INSERT INTO items ...") }`
shared by `createOrder` and `updateOrder`; it stops at the first error. -/
def insertItems (env : Env) (orderID : Int) : Tx → List Item → Tx × Except String Unit
  | tx, [] => (tx, .ok ())
  | tx, item :: rest =>
    match tx.exec env (.insertItem item.Name item.Description item.Quantity orderID) with
    | (tx1, .error e) => (tx1, .error e)
    | (tx1, .ok _) => insertItems env orderID tx1 rest

/-- Handler `createOrder` (`main.go`, lines 83-140).  `body` is what
`c.ShouldBindJSON(&order)` yields: the bound order or the binding error. -/
def createOrder (env : Env) (s : Store) (body : Except String Order) : Outcome :=
  match body with
  | .error e => { resp := ⟨StatusBadRequest, .error e⟩, store := s, log := [] }
  | .ok order =>
    match dbBegin env s with
    | .error e => beginFailed s e
    | .ok tx =>
      match tx.exec env (.insertOrder order.CustomerName order.OrderedAt) with
      | (tx1, .error e) => tx1.rollback.respond StatusBadRequest (.error e)
      | (tx1, .ok result) =>
        match tx1.lastInsertId env result with
        | (tx2, .error e) => tx2.rollback.respond StatusInternalServerError (.error e)
        | (tx2, .ok orderID) =>
          match insertItems env orderID tx2 order.Items with
          | (tx3, .error e) => tx3.rollback.respond StatusBadRequest (.error e)
          | (tx3, .ok _) =>
            match tx3.commit env with
            | (tx4, .error e) => tx4.respond StatusInternalServerError (.error e)
            | (tx4, .ok _) => tx4.respond StatusOK (.message "Order created successfully")

/-- Handler `updateOrder` (`main.go`, lines 213-263) for the path parameter `id`. -/
def updateOrder (env : Env) (s : Store) (id : Int) (body : Except String Order) : Outcome :=
  match body with
  | .error e => { resp := ⟨StatusBadRequest, .error e⟩, store := s, log := [] }
  | .ok order =>
    match dbBegin env s with
    | .error e => beginFailed s e
    | .ok tx =>
      match tx.exec env (.updateOrder order.CustomerName order.OrderedAt id) with
      | (tx1, .error e) => tx1.rollback.respond StatusInternalServerError (.error e)
      | (tx1, .ok _) =>
        match tx1.exec env (.deleteItems id) with
        | (tx2, .error e) => tx2.rollback.respond StatusInternalServerError (.error e)
        | (tx2, .ok _) =>
          match insertItems env id tx2 order.Items with
          | (tx3, .error e) => tx3.rollback.respond StatusInternalServerError (.error e)
          | (tx3, .ok _) =>
            match tx3.commit env with
            | (tx4, .error e) => tx4.respond StatusInternalServerError (.error e)
            | (tx4, .ok _) => tx4.respond StatusOK (.message "Order updated successfully")

/-- Handler `deleteOrder` (`main.go`, lines 266-299) for the path parameter `id`. -/
def deleteOrder (env : Env) (s : Store) (id : Int) : Outcome :=
  match dbBegin env s with
  | .error e => beginFailed s e
  | .ok tx =>
    match tx.exec env (.deleteItems id) with
    | (tx1, .error e) => tx1.rollback.respond StatusInternalServerError (.error e)
    | (tx1, .ok _) =>
      match tx1.exec env (.deleteOrder id) with
      | (tx2, .error e) => tx2.rollback.respond StatusInternalServerError (.error e)
      | (tx2, .ok _) =>
        match tx2.commit env with
        | (tx3, .error e) => tx3.respond StatusInternalServerError (.error e)
        | (tx3, .ok _) => tx3.respond StatusOK (.message "Order deleted successfully")

/-- The rows of `SELECT id, name, description, quantity FROM items WHERE order_id = ?`. -/
def Store.itemsOf (s : Store) (orderID : Int) : List ItemRow :=
  s.items.filter (fun i => i.order_id == orderID)

/-- What `rowsItems.Scan(&item.ID, &item.Name, &item.Description, &item.Quantity)`
stores into a fresh `var item Item`: the four selected columns; the other
fields keep their zero value. -/
def scanItem (r : ItemRow) : Item :=
  { Item.zero with ID := r.id, Name := r.name, Description := r.description,
                   Quantity := r.quantity }

/-- What `Scan(&order.ID, &order.CustomerName, &order.OrderedAt)` stores into a
fresh `var order Order`. -/
def scanOrder (r : OrderRow) : Order :=
  { Order.zero with ID := r.id, CustomerName := r.customer_name, OrderedAt := r.ordered_at }

/-- The loop `for rowsItems.Next() { ...Scan...; order.Items = append(order.Items, item) }`
of `getOrders` and `getOrder`, from row index `k` on, with `acc` the items
appended so far.  When `Next` returns false the loop is over, whether the rows
are exhausted or an error ended them: `rowsItems.Err()` is not consulted. -/
def scanItems (f : RowsFault) : Nat → List ItemRow → List Item → Except String (List Item)
  | _, [], acc => .ok acc
  | k, r :: rest, acc =>
    if f.stopsAt k then .ok acc
    else
      match f.scanErr k with
      | some e => .error e
      | none => scanItems f (k + 1) rest (acc ++ [scanItem r])

/-- The text of `sql.ErrNoRows`. -/
def errNoRows : String := "sql: no rows in result set"

/-- Calls `db.QueryRow(...)` followed by `row.Scan(...)` over the matching rows:
the first row, or the error of the query, of reading its rows, of the scan,
or `sql.ErrNoRows` when no row matches. -/
def queryRow (q : QueryEnv) (rows : List OrderRow) : Except String OrderRow :=
  match q.issue with
  | some e => .error e
  | none =>
    match q.rows, rows with
    | .iterFails 0 e, _ => .error e
    | _, [] => .error errNoRows
    | .scanFails 0 e, _ :: _ => .error e
    | _, r :: _ => .ok r

/-- Handler `getOrder` (`main.go`, lines 183-210) for the path parameter `id`.
It only queries the store. -/
def getOrder (env : Env) (s : Store) (id : Int) : Response :=
  match queryRow (env.query 0) (s.orders.filter (fun o => o.id == id)) with
  | .error e => ⟨StatusInternalServerError, .error e⟩
  | .ok row =>
    let order := scanOrder row
    match (env.query 1).issue with
    | some e => ⟨StatusInternalServerError, .error e⟩
    | none =>
      match scanItems (env.query 1).rows 0 (s.itemsOf order.ID) order.Items with
      | .error e => ⟨StatusInternalServerError, .error e⟩
      | .ok items => ⟨StatusOK, .order { order with Items := items }⟩

/-- The loop `for rows.Next() { ... }` of `getOrders` over the order rows, from
row index `k` on, with `acc` the orders appended so far.  The items of the
order at index `k` are fetched by query `k + 1` of the request.  As in
`scanItems`, the loop ends when `Next` returns false and `rows.Err()` is not
consulted. -/
def getOrdersLoop (env : Env) (s : Store) :
    Nat → List OrderRow → List Order → Except String (List Order)
  | _, [], acc => .ok acc
  | k, row :: rest, acc =>
    if (env.query 0).rows.stopsAt k then .ok acc
    else
      match (env.query 0).rows.scanErr k with
      | some e => .error e
      | none =>
        let order := scanOrder row
        match (env.query (k + 1)).issue with
        | some e => .error e
        | none =>
          match scanItems (env.query (k + 1)).rows 0 (s.itemsOf order.ID) order.Items with
          | .error e => .error e
          | .ok items => getOrdersLoop env s (k + 1) rest (acc ++ [{ order with Items := items }])

/-- Handler `getOrders` (`main.go`, lines 143-180).  It only queries the store. -/
def getOrders (env : Env) (s : Store) : Response :=
  match (env.query 0).issue with
  | some e => ⟨StatusInternalServerError, .error e⟩
  | none =>
    match getOrdersLoop env s 0 s.orders [] with
    | .error e => ⟨StatusInternalServerError, .error e⟩
    | .ok orders => ⟨StatusOK, .orders orders⟩

/-! ## Vocabulary of the statements -/

/-- Whether the call is a `tx.Exec`. -/
def DbCall.isExec : DbCall → Bool
  | .exec _ => true
  | _ => false

/-- Whether some call recorded in the log returned an error. -/
def anyFailed (log : List DbEvent) : Bool :=
  log.any (fun e => e.failed)

/-- Whether some statement (`tx.Exec`) or the commit recorded in the log
returned an error. -/
def stmtOrCommitFailed (log : List DbEvent) : Bool :=
  log.any (fun e => e.failed && (e.call.isExec || e.call == .commit))

/-- Whether the last call recorded in the log ended the transaction: a
rollback, or a commit (successful or not). -/
def txEnded (log : List DbEvent) : Bool :=
  match log.getLast? with
  | some e => e.call == .rollback || e.call == .commit
  | none => false

/-- Whether some statement (`tx.Exec`) recorded in the log returned an error. -/
def stmtFailed (log : List DbEvent) : Bool :=
  log.any (fun e => e.failed && e.call.isExec)

/-- The item rows the store appends when `items` are inserted one after the
other for order `orderID`, the first one receiving identifier `start`. -/
def newItemRows (start : Int) (orderID : Int) : List Item → List ItemRow
  | [] => []
  | item :: rest =>
    { id := start, name := item.Name, description := item.Description,
      quantity := item.Quantity, order_id := orderID } :: newItemRows (start + 1) orderID rest

/-- The success message of `createOrder`. -/
def createdMsg : Response := ⟨StatusOK, .message "Order created successfully"⟩

/-- The store a successful `createOrder` of `order` leaves behind. -/
def Store.created (s : Store) (order : Order) : Store :=
  { orders := s.orders ++ [{ id := s.nextOrderId, customer_name := order.CustomerName,
                             ordered_at := order.OrderedAt }],
    items := s.items ++ newItemRows s.nextItemId s.nextOrderId order.Items,
    nextOrderId := s.nextOrderId + 1,
    nextItemId := s.nextItemId + order.Items.length }

/-- The success message of `updateOrder`. -/
def updatedMsg : Response := ⟨StatusOK, .message "Order updated successfully"⟩

/-- The success message of `deleteOrder`. -/
def deletedMsg : Response := ⟨StatusOK, .message "Order deleted successfully"⟩

/-- The store a successful `updateOrder` of `id` with `order` leaves behind. -/
def Store.updated (s : Store) (id : Int) (order : Order) : Store :=
  { orders := s.orders.map (fun o =>
      if o.id = id then { o with customer_name := order.CustomerName,
                                 ordered_at := order.OrderedAt }
      else o),
    items := s.items.filter (fun i => i.order_id != id) ++
      newItemRows s.nextItemId id order.Items,
    nextOrderId := s.nextOrderId,
    nextItemId := s.nextItemId + order.Items.length }

/-- The store a successful `deleteOrder` of `id` leaves behind. -/
def Store.deleted (s : Store) (id : Int) : Store :=
  { orders := s.orders.filter (fun o => o.id != id),
    items := s.items.filter (fun i => i.order_id != id),
    nextOrderId := s.nextOrderId,
    nextItemId := s.nextItemId }

/-- A query that meets no error. -/
def QueryEnv.clean : QueryEnv :=
  { issue := none, rows := .none }

/-- The fields of an item that a payload supplies and a read returns. -/
def Item.triple (i : Item) : String × String × Int :=
  (i.Name, i.Description, i.Quantity)

/-- What the store guarantees of its own rows: every identifier was handed out
by the `AUTO_INCREMENT` counter of its table, hence lies below it, and every
item row references an existing order row (the foreign key). -/
def Store.WF (s : Store) : Prop :=
  (∀ o ∈ s.orders, o.id < s.nextOrderId) ∧
    (∀ i ∈ s.items, i.id < s.nextItemId) ∧
    (∀ i ∈ s.items, ∃ o ∈ s.orders, o.id = i.order_id)

instance (s : Store) : Decidable s.WF := by
  unfold Store.WF
  infer_instance

/-! ## Concrete inputs -/

/-- The payload of the scenario of the specification: customer Alice, ordered
at 2024-01-01, one item Widget with description x and quantity 2. -/
def alice : Order :=
  { Order.zero with
      CustomerName := "Alice", OrderedAt := "2024-01-01",
      Items := [{ Item.zero with Name := "Widget", Description := "x", Quantity := 2 }] }

/-- A payload with two items. -/
def bob : Order :=
  { Order.zero with
      CustomerName := "Bob", OrderedAt := "2024-02-02",
      Items := [{ Item.zero with Name := "Bolt", Description := "m4", Quantity := 10 },
                { Item.zero with Name := "Nut", Description := "m4", Quantity := 10 }] }

/-- A payload without items. -/
def carol : Order :=
  { Order.zero with CustomerName := "Carol", OrderedAt := "2024-03-03" }

/-- The order row of Bob's order, with identifier 1. -/
def bobRow : OrderRow :=
  { id := 1, customer_name := "Bob", ordered_at := "2024-02-02" }

/-- The first item row of order 1. -/
def boltRow : ItemRow :=
  { id := 1, name := "Bolt", description := "m4", quantity := 10, order_id := 1 }

/-- The second item row of order 1. -/
def nutRow : ItemRow :=
  { id := 2, name := "Nut", description := "m4", quantity := 10, order_id := 1 }

/-- A store holding order 1 with two items. -/
def storeBob : Store :=
  { orders := [bobRow], items := [boltRow, nutRow], nextOrderId := 2, nextItemId := 3 }

/-- An environment whose `k`-th `tx.Exec` fails with the error `boom`. -/
def envExecFails (k : Nat) : Env :=
  { Env.ok with exec := fun j => if j = k then some "boom" else none }

/-- An environment whose commit fails with the error `boom`. -/
def envCommitFails : Env :=
  { Env.ok with commit := some "boom" }

/-- An environment in which reading the rows of query 1 (the items query of
Get, and of the first order listed by List) ends with an error after one
row. -/
def envItemsCutShort : Env :=
  { Env.ok with
      query := fun j => if j = 1 then { issue := none, rows := .iterFails 1 "unexpected EOF" }
                        else QueryEnv.clean }

/-! ## Basic facts about transactions and the handlers -/

theorem dbBegin_eq_ok {env : Env} {s : Store} {tx : Tx} (h : dbBegin env s = .ok tx) :
    tx = { committed := s, cur := s, n := 0, log := [⟨.begin, false⟩] } := by
  unfold dbBegin at h
  split at h
  · cases h
  · cases h; rfl

theorem Tx.exec_ok {env : Env} {tx tx1 : Tx} {stmt : Stmt} {r : Int}
    (h : tx.exec env stmt = (tx1, .ok r)) :
    tx.cur.run stmt = .ok (tx1.cur, r) ∧ tx1.committed = tx.committed ∧ tx1.n = tx.n + 1 ∧
      tx1.log = tx.log ++ [⟨.exec stmt, false⟩] := by
  unfold Tx.exec at h
  split at h
  · cases h
  · split at h
    · cases h
    · next s1 id hrun =>
      cases h
      exact ⟨hrun, rfl, rfl, rfl⟩

theorem Tx.exec_error {env : Env} {tx tx1 : Tx} {stmt : Stmt} {e : String}
    (h : tx.exec env stmt = (tx1, .error e)) :
    tx1.cur = tx.cur ∧ tx1.committed = tx.committed ∧ tx1.n = tx.n + 1 ∧
      tx1.log = tx.log ++ [⟨.exec stmt, true⟩] := by
  unfold Tx.exec at h
  split at h
  · cases h; exact ⟨rfl, rfl, rfl, rfl⟩
  · split at h
    · cases h; exact ⟨rfl, rfl, rfl, rfl⟩
    · cases h

theorem newItemRows_length (start orderID : Int) (items : List Item) :
    (newItemRows start orderID items).length = items.length := by
  induction items generalizing start with
  | nil => rfl
  | cons item rest ih => simp [newItemRows, ih]

theorem newItemRows_order_id {start orderID : Int} {items : List Item} {r : ItemRow}
    (h : r ∈ newItemRows start orderID items) : r.order_id = orderID := by
  induction items generalizing start with
  | nil => simp [newItemRows] at h
  | cons item rest ih =>
    simp only [newItemRows, List.mem_cons] at h
    rcases h with h | h
    · subst h; rfl
    · exact ih h

theorem newItemRows_id_ge {start orderID : Int} {items : List Item} {r : ItemRow}
    (h : r ∈ newItemRows start orderID items) : start ≤ r.id := by
  induction items generalizing start with
  | nil => simp [newItemRows] at h
  | cons item rest ih =>
    simp only [newItemRows, List.mem_cons] at h
    rcases h with h | h
    · subst h; exact le_refl _
    · have := ih h; omega

theorem newItemRows_id_lt {start orderID : Int} {items : List Item} {r : ItemRow}
    (h : r ∈ newItemRows start orderID items) : r.id < start + items.length := by
  induction items generalizing start with
  | nil => simp [newItemRows] at h
  | cons item rest ih =>
    simp only [newItemRows, List.mem_cons] at h
    rcases h with h | h
    · subst h; simp only [List.length_cons]; push_cast; omega
    · have := ih h; simp only [List.length_cons]; push_cast; omega

theorem newItemRows_triples (start orderID : Int) (items : List Item) :
    (newItemRows start orderID items).map (Item.triple ∘ scanItem) = items.map Item.triple := by
  induction items generalizing start with
  | nil => rfl
  | cons item rest ih => simp [newItemRows, ih, Item.triple, scanItem, Item.zero]

theorem anyFailed_append (l1 l2 : List DbEvent) :
    anyFailed (l1 ++ l2) = (anyFailed l1 || anyFailed l2) := by
  simp [anyFailed]

theorem stmtFailed_append (l1 l2 : List DbEvent) :
    stmtFailed (l1 ++ l2) = (stmtFailed l1 || stmtFailed l2) := by
  simp [stmtFailed]

theorem stmtOrCommitFailed_append (l1 l2 : List DbEvent) :
    stmtOrCommitFailed (l1 ++ l2) = (stmtOrCommitFailed l1 || stmtOrCommitFailed l2) := by
  simp [stmtOrCommitFailed]

theorem insertItems_ok {env : Env} {orderID : Int} {items : List Item} {tx tx1 : Tx} {u : Unit}
    (h : insertItems env orderID tx items = (tx1, .ok u)) :
    tx1.committed = tx.committed ∧ tx1.cur.orders = tx.cur.orders ∧
      tx1.cur.items = tx.cur.items ++ newItemRows tx.cur.nextItemId orderID items ∧
      tx1.cur.nextOrderId = tx.cur.nextOrderId ∧
      tx1.cur.nextItemId = tx.cur.nextItemId + items.length ∧
      anyFailed tx1.log = anyFailed tx.log ∧
      (items ≠ [] → tx.cur.orders.any (fun o => o.id == orderID) = true) := by
  induction items generalizing tx with
  | nil =>
    simp only [insertItems, Prod.mk.injEq] at h
    obtain ⟨rfl, -⟩ := h
    simp [newItemRows]
  | cons item rest ih =>
    simp only [insertItems] at h
    split at h
    · cases h
    · next tx2 r hex =>
      obtain ⟨hrun, hc, -, hlog⟩ := Tx.exec_ok hex
      obtain ⟨h1, h2, h3, h4, h5, h6, -⟩ := ih h
      simp only [Store.run] at hrun
      split at hrun
      · next hfk =>
        simp only [Except.ok.injEq, Prod.mk.injEq] at hrun
        obtain ⟨hcur, -⟩ := hrun
        rw [← hcur] at h2 h3 h4 h5
        simp only at h2 h3 h4 h5
        refine ⟨h1.trans hc, h2, ?_, h4, ?_, ?_, fun _ => hfk⟩
        · rw [h3]; simp [newItemRows]
        · rw [h5]; simp only [List.length_cons]; push_cast; omega
        · rw [h6, hlog, anyFailed_append]; simp [anyFailed]
      · cases hrun

theorem insertItems_error {env : Env} {orderID : Int} {items : List Item} {tx tx1 : Tx}
    {e : String} (h : insertItems env orderID tx items = (tx1, .error e)) :
    tx1.committed = tx.committed ∧ stmtFailed tx1.log = true ∧
      tx1.cur.nextOrderId = tx.cur.nextOrderId ∧ tx.cur.nextItemId ≤ tx1.cur.nextItemId := by
  induction items generalizing tx with
  | nil => simp [insertItems] at h
  | cons item rest ih =>
    simp only [insertItems] at h
    split at h
    · next tx2 e2 hex =>
      obtain ⟨hcur, hc, -, hlog⟩ := Tx.exec_error hex
      simp only [Prod.mk.injEq] at h
      obtain ⟨rfl, -⟩ := h
      refine ⟨hc, ?_, by rw [hcur], by rw [hcur]⟩
      rw [hlog, stmtFailed_append]; simp [stmtFailed, DbCall.isExec]
    · next tx2 r hex =>
      obtain ⟨hrun, hc, -, -⟩ := Tx.exec_ok hex
      obtain ⟨h1, h2, h3, h4⟩ := ih h
      simp only [Store.run] at hrun
      split at hrun
      · simp only [Except.ok.injEq, Prod.mk.injEq] at hrun
        obtain ⟨hcur, -⟩ := hrun
        rw [← hcur] at h3 h4
        simp only at h3 h4
        exact ⟨h1.trans hc, h2, h3, by omega⟩
      · cases hrun

theorem stmtFailed_of_anyFailed {log : List DbEvent} (h : anyFailed log = false) :
    stmtFailed log = false := by
  simp only [anyFailed, stmtFailed, List.any_eq_false, Bool.and_eq_true, not_and] at h ⊢
  intro e he hf
  exact absurd hf (h e he)

theorem stmtOrCommitFailed_of_anyFailed {log : List DbEvent} (h : anyFailed log = false) :
    stmtOrCommitFailed log = false := by
  simp only [anyFailed, stmtOrCommitFailed, List.any_eq_false, Bool.and_eq_true, not_and] at h ⊢
  intro e he hf
  exact absurd hf (h e he)

theorem stmtOrCommitFailed_of_stmtFailed {log : List DbEvent} (h : stmtFailed log = true) :
    stmtOrCommitFailed log = true := by
  simp only [stmtOrCommitFailed, stmtFailed, List.any_eq_true, Bool.and_eq_true,
    Bool.or_eq_true] at h ⊢
  obtain ⟨e, he, hf, hx⟩ := h
  exact ⟨e, he, hf, Or.inl hx⟩

theorem createOrder_cases (env : Env) (s : Store) (body : Except String Order) :
    (∃ order, body = .ok order ∧ (createOrder env s body).resp = createdMsg ∧
        anyFailed (createOrder env s body).log = false ∧
        (createOrder env s body).store = s.created order) ∨
      ((createOrder env s body).resp.body.isError = true ∧
        ((createOrder env s body).resp.status = 400 ∨ (createOrder env s body).resp.status = 500) ∧
        (createOrder env s body).store.visible = s.visible ∧
        s.nextOrderId ≤ (createOrder env s body).store.nextOrderId ∧
        s.nextItemId ≤ (createOrder env s body).store.nextItemId ∧
        ((createOrder env s body).resp.status = 400 ↔
          ((∃ e, body = .error e) ∨ stmtFailed (createOrder env s body).log = true)) ∧
        ((createOrder env s body).log = [] ∨ (createOrder env s body).log = [⟨.begin, true⟩] ∨
          txEnded (createOrder env s body).log = true)) := by
  generalize hout : createOrder env s body = out
  unfold createOrder at hout
  split at hout
  · subst hout
    right
    simp [Body.isError, StatusBadRequest]
  · next order =>
    split at hout
    · subst hout
      right
      simp [beginFailed, Body.isError, StatusInternalServerError, stmtFailed, DbCall.isExec]
    · next tx hb =>
      have htx := dbBegin_eq_ok hb
      subst htx
      split at hout
      · next tx1 e hex =>
        obtain ⟨hcur, hc, -, hlog⟩ := Tx.exec_error hex
        subst hout
        right
        simp only at hcur hc hlog
        simp [txEnded, Tx.respond, Tx.rollback, Tx.settled, Store.visible, Body.isError, StatusBadRequest,
          hcur, hc, hlog, stmtFailed, DbCall.isExec]
      · next tx1 result hex =>
        obtain ⟨hrun, hc, -, hlog⟩ := Tx.exec_ok hex
        simp only [Store.run, Except.ok.injEq, Prod.mk.injEq] at hrun hc hlog
        obtain ⟨hcur, hres⟩ := hrun
        split at hout
        · next tx2 e hid =>
          subst hout
          right
          unfold Tx.lastInsertId at hid
          split at hid
          · simp only [Prod.mk.injEq] at hid
            obtain ⟨rfl, -⟩ := hid
            simp [txEnded, Tx.respond, Tx.rollback, Tx.settled, Store.visible, Body.isError,
              StatusInternalServerError, ← hcur, hc, hlog, stmtFailed, DbCall.isExec]
          · cases hid
        · next tx2 orderID hid =>
          unfold Tx.lastInsertId at hid
          split at hid
          · cases hid
          · simp only [Prod.mk.injEq, Except.ok.injEq] at hid
            obtain ⟨rfl, rfl⟩ := hid
            split at hout
            · next tx3 e hins =>
              obtain ⟨h1, h2, h3, h4⟩ := insertItems_error hins
              subst hout
              right
              simp only [← hcur] at h1 h3 h4
              simp [txEnded, Tx.respond, Tx.rollback, Tx.settled, Store.visible, Body.isError,
                StatusBadRequest, h1, hc, h3, stmtFailed_append, h2]
              omega
            · next tx3 u hins =>
              obtain ⟨h1, h2, h3, h4, h5, h6, -⟩ := insertItems_ok hins
              simp only [← hcur, hlog] at h1 h2 h3 h4 h5 h6
              have h6' : anyFailed tx3.log = false := by
                rw [h6]; simp [anyFailed]
              split at hout
              · next tx4 e hcm =>
                subst hout
                right
                unfold Tx.commit at hcm
                split at hcm
                · simp only [Prod.mk.injEq] at hcm
                  obtain ⟨rfl, -⟩ := hcm
                  have hsf := stmtFailed_of_anyFailed h6'
                  have hsc : stmtFailed [⟨DbCall.commit, true⟩] = false := rfl
                  simp [txEnded, Tx.respond, Tx.settled, Store.visible, Body.isError,
                    StatusInternalServerError, h1, hc, h4, h5, stmtFailed_append, hsf, hsc]
                · cases hcm
              · next tx4 u2 hcm =>
                subst hout
                left
                unfold Tx.commit at hcm
                split at hcm
                · cases hcm
                · simp only [Prod.mk.injEq] at hcm
                  obtain ⟨rfl, -⟩ := hcm
                  refine ⟨order, rfl, rfl, ?_, ?_⟩
                  · simp only [Tx.respond, anyFailed_append, h6']
                    rfl
                  · simp [txEnded, Tx.respond, Tx.settled, Store.created, h2, h3, h4, h5, ← hres]

theorem any_id_map_update (orders : List OrderRow) (id : Int) (a b : String) :
    (orders.map (fun o =>
        if o.id = id then { o with customer_name := a, ordered_at := b } else o)).any
      (fun o => o.id == id) = orders.any (fun o => o.id == id) := by
  induction orders with
  | nil => rfl
  | cons o rest ih =>
    simp only [List.map_cons, List.any_cons, ih]
    by_cases h : o.id = id <;> simp [h]

theorem updateOrder_cases (env : Env) (s : Store) (id : Int) (body : Except String Order) :
    (∃ order, body = .ok order ∧ (updateOrder env s id body).resp = updatedMsg ∧
        anyFailed (updateOrder env s id body).log = false ∧
        (updateOrder env s id body).store = s.updated id order ∧
        (order.Items ≠ [] → s.orders.any (fun o => o.id == id) = true)) ∨
      ((updateOrder env s id body).resp.body.isError = true ∧
        ((updateOrder env s id body).resp.status = 400 ∨
          (updateOrder env s id body).resp.status = 500) ∧
        (updateOrder env s id body).store.visible = s.visible ∧
        s.nextOrderId ≤ (updateOrder env s id body).store.nextOrderId ∧
        s.nextItemId ≤ (updateOrder env s id body).store.nextItemId ∧
        ((updateOrder env s id body).resp.status = 400 ↔ ∃ e, body = .error e) ∧
        ((updateOrder env s id body).log = [] ∨
          (updateOrder env s id body).log = [⟨.begin, true⟩] ∨
          txEnded (updateOrder env s id body).log = true)) := by
  generalize hout : updateOrder env s id body = out
  unfold updateOrder at hout
  split at hout
  · subst hout
    right
    simp [Body.isError, StatusBadRequest]
  · next order =>
    split at hout
    · subst hout
      right
      simp [beginFailed, Body.isError, StatusInternalServerError]
    · next tx hb =>
      have htx := dbBegin_eq_ok hb
      subst htx
      split at hout
      · next tx1 e hex =>
        obtain ⟨hcur, hc, -, -⟩ := Tx.exec_error hex
        subst hout
        right
        simp only at hcur hc
        simp [txEnded, Tx.respond, Tx.rollback, Tx.settled, Store.visible, Body.isError,
          StatusInternalServerError, hcur, hc]
      · next tx1 r1 hex =>
        obtain ⟨hrun, hc, -, hlog⟩ := Tx.exec_ok hex
        simp only [Store.run, Except.ok.injEq, Prod.mk.injEq] at hrun hc hlog
        obtain ⟨hcur, -⟩ := hrun
        split at hout
        · next tx2 e hex2 =>
          obtain ⟨hcur2, hc2, -, -⟩ := Tx.exec_error hex2
          subst hout
          right
          simp [txEnded, Tx.respond, Tx.rollback, Tx.settled, Store.visible, Body.isError,
            StatusInternalServerError, hcur2, hc2, hc, ← hcur]
        · next tx2 r2 hex2 =>
          obtain ⟨hrun2, hc2, -, hlog2⟩ := Tx.exec_ok hex2
          simp only [Store.run, Except.ok.injEq, Prod.mk.injEq, ← hcur] at hrun2
          obtain ⟨hcur2, -⟩ := hrun2
          split at hout
          · next tx3 e hins =>
            obtain ⟨h1, -, h3, h4⟩ := insertItems_error hins
            subst hout
            right
            simp only [← hcur2] at h3 h4
            simp [txEnded, Tx.respond, Tx.rollback, Tx.settled, Store.visible, Body.isError,
              StatusInternalServerError, h1, hc2, hc, h3, h4]
          · next tx3 u hins =>
            obtain ⟨h1, h2, h3, h4, h5, h6, h7⟩ := insertItems_ok hins
            simp only [← hcur2, hlog2, hlog] at h1 h2 h3 h4 h5 h6 h7
            have h6' : anyFailed tx3.log = false := by
              rw [h6]; simp [anyFailed]
            rw [any_id_map_update] at h7
            split at hout
            · next tx4 e hcm =>
              subst hout
              right
              unfold Tx.commit at hcm
              split at hcm
              · simp only [Prod.mk.injEq] at hcm
                obtain ⟨rfl, -⟩ := hcm
                simp [txEnded, Tx.respond, Tx.settled, Store.visible, Body.isError,
                  StatusInternalServerError, h1, hc2, hc, h4, h5]
              · cases hcm
            · next tx4 u2 hcm =>
              subst hout
              left
              unfold Tx.commit at hcm
              split at hcm
              · cases hcm
              · simp only [Prod.mk.injEq] at hcm
                obtain ⟨rfl, -⟩ := hcm
                refine ⟨order, rfl, rfl, ?_, ?_, h7⟩
                · simp only [Tx.respond, anyFailed_append, h6']
                  rfl
                · simp [txEnded, Tx.respond, Tx.settled, Store.updated, h2, h3, h4, h5]

theorem deleteOrder_cases (env : Env) (s : Store) (id : Int) :
    ((deleteOrder env s id).resp = deletedMsg ∧
        anyFailed (deleteOrder env s id).log = false ∧
        (deleteOrder env s id).store = s.deleted id) ∨
      ((deleteOrder env s id).resp.body.isError = true ∧
        (deleteOrder env s id).resp.status = 500 ∧
        (deleteOrder env s id).store.visible = s.visible ∧
        s.nextOrderId ≤ (deleteOrder env s id).store.nextOrderId ∧
        s.nextItemId ≤ (deleteOrder env s id).store.nextItemId ∧
        ((deleteOrder env s id).log = [⟨.begin, true⟩] ∨
          txEnded (deleteOrder env s id).log = true)) := by
  generalize hout : deleteOrder env s id = out
  unfold deleteOrder at hout
  split at hout
  · subst hout
    right
    simp [beginFailed, Body.isError, StatusInternalServerError, Store.visible]
  · next tx hb =>
    have htx := dbBegin_eq_ok hb
    subst htx
    split at hout
    · next tx1 e hex =>
      obtain ⟨hcur, hc, -, -⟩ := Tx.exec_error hex
      subst hout
      right
      simp only at hcur hc
      simp [txEnded, Tx.respond, Tx.rollback, Tx.settled, Store.visible, Body.isError,
        StatusInternalServerError, hcur, hc]
    · next tx1 r1 hex =>
      obtain ⟨hrun, hc, -, hlog⟩ := Tx.exec_ok hex
      simp only [Store.run, Except.ok.injEq, Prod.mk.injEq] at hrun hc hlog
      obtain ⟨hcur, -⟩ := hrun
      split at hout
      · next tx2 e hex2 =>
        obtain ⟨hcur2, hc2, -, -⟩ := Tx.exec_error hex2
        subst hout
        right
        simp [txEnded, Tx.respond, Tx.rollback, Tx.settled, Store.visible, Body.isError,
          StatusInternalServerError, hcur2, hc2, hc, ← hcur]
      · next tx2 r2 hex2 =>
        obtain ⟨hrun2, hc2, -, hlog2⟩ := Tx.exec_ok hex2
        simp only [Store.run, ← hcur] at hrun2
        split at hrun2
        · cases hrun2
        · simp only [Except.ok.injEq, Prod.mk.injEq] at hrun2
          obtain ⟨hcur2, -⟩ := hrun2
          split at hout
          · next tx3 e hcm =>
            subst hout
            right
            unfold Tx.commit at hcm
            split at hcm
            · simp only [Prod.mk.injEq] at hcm
              obtain ⟨rfl, -⟩ := hcm
              simp [txEnded, Tx.respond, Tx.settled, Store.visible, Body.isError,
                StatusInternalServerError, hc2, hc, ← hcur2]
            · cases hcm
          · next tx3 u2 hcm =>
            subst hout
            left
            unfold Tx.commit at hcm
            split at hcm
            · cases hcm
            · simp only [Prod.mk.injEq] at hcm
              obtain ⟨rfl, -⟩ := hcm
              refine ⟨rfl, ?_, ?_⟩
              · simp [txEnded, Tx.respond, anyFailed_append, hlog2, hlog, anyFailed]
              · simp [txEnded, Tx.respond, Tx.settled, Store.deleted, ← hcur2]

/-! ## Reading rows -/

theorem scanItems_clean (k : Nat) (rows : List ItemRow) (acc : List Item) :
    scanItems .none k rows acc = .ok (acc ++ rows.map scanItem) := by
  induction rows generalizing k acc with
  | nil => simp [scanItems]
  | cons r rest ih => simp [scanItems, RowsFault.stopsAt, RowsFault.scanErr, ih]

theorem scanItems_mem {f : RowsFault} {k : Nat} {rows : List ItemRow} {acc items : List Item}
    (h : scanItems f k rows acc = .ok items) :
    ∀ it ∈ items, it ∈ acc ∨ ∃ r ∈ rows, it = scanItem r := by
  induction rows generalizing k acc with
  | nil =>
    simp only [scanItems, Except.ok.injEq] at h
    subst h
    intro it hit
    exact Or.inl hit
  | cons r rest ih =>
    simp only [scanItems] at h
    split at h
    · simp only [Except.ok.injEq] at h
      subst h
      intro it hit
      exact Or.inl hit
    · split at h
      · cases h
      · intro it hit
        rcases ih h it hit with hacc | ⟨r1, hr1, heq⟩
        · rcases List.mem_append.mp hacc with hacc | hnew
          · exact Or.inl hacc
          · right
            exact ⟨r, List.mem_cons_self _ _, by simpa using hnew⟩
        · right
          exact ⟨r1, List.mem_cons_of_mem _ hr1, heq⟩

theorem queryRow_nil (q : QueryEnv) : ∃ e, queryRow q [] = .error e := by
  unfold queryRow
  split
  · exact ⟨_, rfl⟩
  · split <;> first | exact ⟨_, rfl⟩ | simp_all

theorem queryRow_mem {q : QueryEnv} {rows : List OrderRow} {r : OrderRow}
    (h : queryRow q rows = .ok r) : r ∈ rows := by
  unfold queryRow at h
  split at h
  · cases h
  · split at h
    · cases h
    · cases h
    · cases h
    · simp only [Except.ok.injEq] at h
      subst h
      exact List.mem_cons_self _ _

theorem queryRow_clean (r : OrderRow) (rest : List OrderRow) :
    queryRow QueryEnv.clean (r :: rest) = .ok r := by
  simp [queryRow, QueryEnv.clean]

theorem QueryEnv.clean_issue : QueryEnv.clean.issue = none := rfl

theorem QueryEnv.clean_rows : QueryEnv.clean.rows = RowsFault.none := rfl

theorem scanItem_orderID (r : ItemRow) : (scanItem r).OrderID = 0 := rfl

theorem scanItem_triple (r : ItemRow) :
    (scanItem r).triple = (r.name, r.description, r.quantity) := rfl

/-! ## The store invariant is kept by every handler -/

theorem Store.WF_empty : Store.empty.WF := by
  simp [Store.WF, Store.empty]

theorem Store.WF_of_visible {s t : Store} (h : s.WF) (hv : t.visible = s.visible)
    (ho : s.nextOrderId ≤ t.nextOrderId) (hi : s.nextItemId ≤ t.nextItemId) : t.WF := by
  simp only [Store.visible, Prod.mk.injEq] at hv
  obtain ⟨h1, h2, h3⟩ := h
  refine ⟨?_, ?_, ?_⟩
  · intro o hin
    rw [hv.1] at hin
    exact lt_of_lt_of_le (h1 o hin) ho
  · intro i hin
    rw [hv.2] at hin
    exact lt_of_lt_of_le (h2 i hin) hi
  · intro i hin
    rw [hv.2] at hin
    rw [hv.1]
    exact h3 i hin

theorem Store.WF_created {s : Store} (h : s.WF) (order : Order) : (s.created order).WF := by
  obtain ⟨h1, h2, h3⟩ := h
  refine ⟨?_, ?_, ?_⟩
  · intro o hin
    simp only [Store.created, List.mem_append, List.mem_singleton] at hin ⊢
    rcases hin with hin | rfl
    · have := h1 o hin; omega
    · simp
  · intro i hin
    simp only [Store.created, List.mem_append] at hin ⊢
    rcases hin with hin | hin
    · have := h2 i hin; omega
    · exact newItemRows_id_lt hin
  · intro i hin
    simp only [Store.created, List.mem_append, List.mem_singleton] at hin ⊢
    rcases hin with hin | hin
    · obtain ⟨o, ho, hoid⟩ := h3 i hin
      exact ⟨o, Or.inl ho, hoid⟩
    · exact ⟨_, Or.inr rfl, (newItemRows_order_id hin).symm⟩

theorem Store.WF_updated {s : Store} (h : s.WF) (id : Int) (order : Order)
    (hfk : order.Items ≠ [] → s.orders.any (fun o => o.id == id) = true) :
    (s.updated id order).WF := by
  obtain ⟨h1, h2, h3⟩ := h
  refine ⟨?_, ?_, ?_⟩
  · intro o hin
    simp only [Store.updated, List.mem_map] at hin ⊢
    obtain ⟨o0, ho0, rfl⟩ := hin
    have := h1 o0 ho0
    split <;> simpa using this
  · intro i hin
    simp only [Store.updated, List.mem_append, List.mem_filter] at hin ⊢
    rcases hin with hin | hin
    · have := h2 i hin.1; omega
    · exact newItemRows_id_lt hin
  · intro i hin
    simp only [Store.updated, List.mem_append, List.mem_filter, List.mem_map] at hin ⊢
    rcases hin with hin | hin
    · obtain ⟨o, ho, hoid⟩ := h3 i hin.1
      refine ⟨_, ⟨o, ho, rfl⟩, ?_⟩
      split <;> simpa using hoid
    · have hne : order.Items ≠ [] := by
        intro hnil
        rw [hnil] at hin
        simp [newItemRows] at hin
      have hany := hfk hne
      simp only [List.any_eq_true, beq_iff_eq] at hany
      obtain ⟨o, ho, hoid⟩ := hany
      refine ⟨_, ⟨o, ho, rfl⟩, ?_⟩
      rw [newItemRows_order_id hin]
      simp [hoid]

theorem Store.WF_deleted {s : Store} (h : s.WF) (id : Int) : (s.deleted id).WF := by
  obtain ⟨h1, h2, h3⟩ := h
  refine ⟨?_, ?_, ?_⟩
  · intro o hin
    simp only [Store.deleted, List.mem_filter] at hin ⊢
    exact h1 o hin.1
  · intro i hin
    simp only [Store.deleted, List.mem_filter] at hin ⊢
    exact h2 i hin.1
  · intro i hin
    simp only [Store.deleted, List.mem_filter, bne_iff_ne, ne_eq] at hin ⊢
    obtain ⟨o, ho, hoid⟩ := h3 i hin.1
    exact ⟨o, ⟨ho, by rw [hoid]; exact hin.2⟩, hoid⟩

/-- The invariant `Store.WF` holds of the empty store and is kept by every
writing handler, whatever the request and whatever fails. -/
theorem Store.WF_invariant (env : Env) (s : Store) (id : Int) (body : Except String Order)
    (h : s.WF) :
    (createOrder env s body).store.WF ∧ (updateOrder env s id body).store.WF ∧
      (deleteOrder env s id).store.WF := by
  refine ⟨?_, ?_, ?_⟩
  · rcases createOrder_cases env s body with ⟨order, -, -, -, hst⟩ | ⟨-, -, hv, ho, hi, -⟩
    · rw [hst]; exact Store.WF_created h order
    · exact Store.WF_of_visible h hv ho hi
  · rcases updateOrder_cases env s id body with ⟨order, -, -, -, hst, hfk⟩ | ⟨-, -, hv, ho, hi, -⟩
    · rw [hst]; exact Store.WF_updated h id order hfk
    · exact Store.WF_of_visible h hv ho hi
  · rcases deleteOrder_cases env s id with ⟨-, -, hst⟩ | ⟨-, -, hv, ho, hi, -⟩
    · rw [hst]; exact Store.WF_deleted h id
    · exact Store.WF_of_visible h hv ho hi

/-! ## The claims -/

theorem status_ok_ne_error {r : Response} (h : r.status = 400 ∨ r.status = 500) :
    r.status ≠ StatusOK := by
  rcases h with h | h <;> rw [h] <;> decide

theorem filter_eq_of_filter_ne (items : List ItemRow) (id : Int) :
    (items.filter (fun i => i.order_id != id)).filter (fun i => i.order_id == id) = [] := by
  simp [List.filter_filter, List.filter_eq_nil_iff]

theorem filter_eq_newItemRows (start id : Int) (items : List Item) :
    (newItemRows start id items).filter (fun i => i.order_id == id) =
      newItemRows start id items := by
  rw [List.filter_eq_self]
  intro r hr
  simp [newItemRows_order_id hr]

theorem filter_ne_newItemRows (start id : Int) (items : List Item) :
    (newItemRows start id items).filter (fun i => i.order_id != id) = [] := by
  rw [List.filter_eq_nil_iff]
  intro r hr
  simp [newItemRows_order_id hr]

theorem filter_ne_map_update (orders : List OrderRow) (id : Int) (a b : String) :
    (orders.map (fun o =>
        if o.id = id then { o with customer_name := a, ordered_at := b } else o)).filter
      (fun o => o.id != id) = orders.filter (fun o => o.id != id) := by
  induction orders with
  | nil => rfl
  | cons o rest ih =>
    by_cases h : o.id = id
    · simp [List.filter_cons, h, ih]
    · simp [List.filter_cons, h, ih]

theorem txEnded_of_failed {log : List DbEvent} (hf : stmtOrCommitFailed log = true)
    (h : log = [] ∨ log = [⟨.begin, true⟩] ∨ txEnded log = true) : txEnded log = true := by
  rcases h with h | h | h
  · rw [h] at hf; cases hf
  · rw [h] at hf; cases hf
  · exact h

/-- C1 (atomicity).  For every store, every environment and every Create,
Update or Delete call: if a statement of the call's transaction (a `tx.Exec`)
or its commit returns an error, then the rows of the store after the call are
the rows before it (the transaction was ended by a rollback or by the failed
commit), and the call responds with an error body and not with its success
message. -/
theorem atomicity_on_failure (env : Env) (s : Store) (id : Int) (body : Except String Order) :
    (stmtOrCommitFailed (createOrder env s body).log = true →
        (createOrder env s body).store.visible = s.visible ∧
        txEnded (createOrder env s body).log = true ∧
        (createOrder env s body).resp.body.isError = true ∧
        (createOrder env s body).resp ≠ createdMsg) ∧
      (stmtOrCommitFailed (updateOrder env s id body).log = true →
        (updateOrder env s id body).store.visible = s.visible ∧
        txEnded (updateOrder env s id body).log = true ∧
        (updateOrder env s id body).resp.body.isError = true ∧
        (updateOrder env s id body).resp ≠ updatedMsg) ∧
      (stmtOrCommitFailed (deleteOrder env s id).log = true →
        (deleteOrder env s id).store.visible = s.visible ∧
        txEnded (deleteOrder env s id).log = true ∧
        (deleteOrder env s id).resp.body.isError = true ∧
        (deleteOrder env s id).resp ≠ deletedMsg) := by
  refine ⟨?_, ?_, ?_⟩
  · intro hf
    rcases createOrder_cases env s body with ⟨_, -, -, hlog, -⟩ | ⟨he, -, hv, -, -, -, hend⟩
    · rw [stmtOrCommitFailed_of_anyFailed hlog] at hf; cases hf
    · refine ⟨hv, txEnded_of_failed hf hend, he, ?_⟩
      intro hr
      rw [hr] at he
      cases he
  · intro hf
    rcases updateOrder_cases env s id body with ⟨_, -, -, hlog, -⟩ | ⟨he, -, hv, -, -, -, hend⟩
    · rw [stmtOrCommitFailed_of_anyFailed hlog] at hf; cases hf
    · refine ⟨hv, txEnded_of_failed hf hend, he, ?_⟩
      intro hr
      rw [hr] at he
      cases he
  · intro hf
    rcases deleteOrder_cases env s id with ⟨-, hlog, -⟩ | ⟨he, -, hv, -, -, hend⟩
    · rw [stmtOrCommitFailed_of_anyFailed hlog] at hf; cases hf
    · refine ⟨hv, txEnded_of_failed hf (Or.inr hend), he, ?_⟩
      intro hr
      rw [hr] at he
      cases he

/-- Instance of C1: on the store holding Bob's order, a Create whose second
item insert fails, an Update whose commit fails and a Delete whose order
delete fails each record the failure and leave the rows as they were. -/
theorem atomicity_on_failure_witness :
    stmtOrCommitFailed (createOrder (envExecFails 2) storeBob (.ok bob)).log = true ∧
      stmtOrCommitFailed (updateOrder envCommitFails storeBob 1 (.ok alice)).log = true ∧
      stmtOrCommitFailed (deleteOrder (envExecFails 1) storeBob 1).log = true ∧
      (createOrder (envExecFails 2) storeBob (.ok bob)).store.visible = storeBob.visible ∧
      (updateOrder envCommitFails storeBob 1 (.ok alice)).store.visible = storeBob.visible ∧
      (deleteOrder (envExecFails 1) storeBob 1).store.visible = storeBob.visible :=
  ⟨by decide, by decide, by decide,
    ((atomicity_on_failure (envExecFails 2) storeBob 1 (.ok bob)).1 (by decide)).1,
    ((atomicity_on_failure envCommitFails storeBob 1 (.ok alice)).2.1 (by decide)).1,
    ((atomicity_on_failure (envExecFails 1) storeBob 1 (.ok bob)).2.2 (by decide)).1⟩

/-- C9 (input error).  A Create or Update request whose body fails to bind is
answered with status 400 and an error body; no call into the database layer is
made (the log of the request is empty: no transaction begun, no statement
executed) and the store is unchanged. -/
theorem malformed_body_rejected (env : Env) (s : Store) (id : Int) (e : String) :
    (createOrder env s (.error e)).resp = ⟨StatusBadRequest, .error e⟩ ∧
      (createOrder env s (.error e)).log = [] ∧
      (createOrder env s (.error e)).store = s ∧
      (updateOrder env s id (.error e)).resp = ⟨StatusBadRequest, .error e⟩ ∧
      (updateOrder env s id (.error e)).log = [] ∧
      (updateOrder env s id (.error e)).store = s :=
  ⟨rfl, rfl, rfl, rfl, rfl, rfl⟩

/-- C10 (frame).  A successful Update or Delete of `id` leaves every order row
whose id differs from `id` and every item row whose `order_id` differs from
`id` as it was; a successful Create keeps every row that existed before it
(the tables are the old tables followed by the new rows). -/
theorem frame_of_writes (env : Env) (s : Store) (id : Int) (body : Except String Order) :
    ((updateOrder env s id body).resp.status = StatusOK →
        (updateOrder env s id body).store.orders.filter (fun o => o.id != id) =
          s.orders.filter (fun o => o.id != id) ∧
        (updateOrder env s id body).store.items.filter (fun i => i.order_id != id) =
          s.items.filter (fun i => i.order_id != id)) ∧
      ((deleteOrder env s id).resp.status = StatusOK →
        (deleteOrder env s id).store.orders.filter (fun o => o.id != id) =
          s.orders.filter (fun o => o.id != id) ∧
        (deleteOrder env s id).store.items.filter (fun i => i.order_id != id) =
          s.items.filter (fun i => i.order_id != id)) ∧
      ((createOrder env s body).resp.status = StatusOK →
        ∃ newOrders newItems,
          (createOrder env s body).store.orders = s.orders ++ newOrders ∧
          (createOrder env s body).store.items = s.items ++ newItems) := by
  refine ⟨?_, ?_, ?_⟩
  · intro hok
    rcases updateOrder_cases env s id body with ⟨order, -, -, -, hst, -⟩ | ⟨-, hs, -⟩
    · rw [hst]
      simp only [Store.updated, filter_ne_map_update, List.filter_append,
        filter_ne_newItemRows, List.append_nil, List.filter_filter, Bool.and_self, and_self]
    · exact absurd hok (status_ok_ne_error hs)
  · intro hok
    rcases deleteOrder_cases env s id with ⟨-, -, hst⟩ | ⟨-, hs, -⟩
    · rw [hst]
      simp only [Store.deleted, List.filter_filter, Bool.and_self, and_self]
    · exact absurd hok (status_ok_ne_error (Or.inr hs))
  · intro hok
    rcases createOrder_cases env s body with ⟨order, -, -, -, hst⟩ | ⟨-, hs, -⟩
    · rw [hst]
      exact ⟨_, _, rfl, rfl⟩
    · exact absurd hok (status_ok_ne_error hs)

/-- Instance of C10: on a store holding Bob's order 1 and Alice's order 2, a
successful Update of order 2 leaves the item rows of order 1 as they were. -/
theorem frame_of_writes_witness :
    (updateOrder Env.ok (createOrder Env.ok storeBob (.ok alice)).store 2 (.ok bob)).resp.status
        = StatusOK ∧
      (updateOrder Env.ok (createOrder Env.ok storeBob (.ok alice)).store 2
          (.ok bob)).store.items.filter (fun i => i.order_id != 2) = storeBob.items :=
  ⟨by decide,
    ((frame_of_writes Env.ok (createOrder Env.ok storeBob (.ok alice)).store 2 (.ok bob)).1
      (by decide)).2.trans (by decide)⟩

theorem getOrder_missing (env : Env) (s : Store) (id : Int)
    (h : s.orders.filter (fun o => o.id == id) = []) :
    ∃ e, getOrder env s id = ⟨StatusInternalServerError, .error e⟩ := by
  obtain ⟨e, he⟩ := queryRow_nil (env.query 0)
  exact ⟨e, by simp [getOrder, h, he]⟩

/-- C4 (delete).  After a successful Delete of `id` the store holds no item row
whose `order_id` is `id` and no order row whose id is `id`; no item row is
orphaned by it (the item rows left are rows that were there before and
reference another order, and when every item row referenced an order row
before the call, every item row does so after it), and a following Get of `id`
fails (status 500 with an error body) whatever the database layer does. -/
theorem delete_removes_order_and_items (env : Env) (s : Store) (id : Int)
    (hok : (deleteOrder env s id).resp.status = StatusOK) :
    (deleteOrder env s id).store.itemsOf id = [] ∧
      (deleteOrder env s id).store.orders.filter (fun o => o.id == id) = [] ∧
      (∀ i ∈ (deleteOrder env s id).store.items, i ∈ s.items ∧ i.order_id ≠ id) ∧
      ((∀ i ∈ s.items, ∃ o ∈ s.orders, o.id = i.order_id) →
        ∀ i ∈ (deleteOrder env s id).store.items,
          ∃ o ∈ (deleteOrder env s id).store.orders, o.id = i.order_id) ∧
      ∀ envG : Env, ∃ e,
        getOrder envG (deleteOrder env s id).store id = ⟨StatusInternalServerError, .error e⟩ := by
  rcases deleteOrder_cases env s id with ⟨-, -, hst⟩ | ⟨-, hs, -⟩
  · have ho : (deleteOrder env s id).store.orders.filter (fun o => o.id == id) = [] := by
      rw [hst]
      simp [Store.deleted, List.filter_filter, List.filter_eq_nil_iff]
    refine ⟨?_, ho, ?_, ?_, fun envG => getOrder_missing envG _ id ho⟩
    · rw [hst]
      exact filter_eq_of_filter_ne s.items id
    · intro i hi
      rw [hst] at hi
      simpa [Store.deleted, List.mem_filter] using hi
    · intro hfk i hi
      rw [hst] at hi ⊢
      simp only [Store.deleted, List.mem_filter, bne_iff_ne, ne_eq] at hi ⊢
      obtain ⟨o, ho1, hoid⟩ := hfk i hi.1
      exact ⟨o, ⟨ho1, by rw [hoid]; exact hi.2⟩, hoid⟩
  · exact absurd hok (status_ok_ne_error (Or.inr hs))

/-- Instance of C4: deleting order 1 of the store holding Bob's order. -/
theorem delete_removes_order_and_items_witness :
    (deleteOrder Env.ok storeBob 1).resp.status = StatusOK ∧
      (deleteOrder Env.ok storeBob 1).store.itemsOf 1 = [] ∧
      (deleteOrder Env.ok storeBob 1).store.orders.filter (fun o => o.id == 1) = [] :=
  ⟨by decide, (delete_removes_order_and_items Env.ok storeBob 1 (by decide)).1,
    (delete_removes_order_and_items Env.ok storeBob 1 (by decide)).2.1⟩

/-- C3 (replacement).  After a successful Update of `id` with a payload of `N`
items, the store holds exactly `N` item rows whose `order_id` is `id`, and none
of them carries the identifier of an item row that belonged to the order before
the update. -/
theorem update_replaces_items (env : Env) (s : Store) (id : Int) (order : Order)
    (hwf : s.WF) (hok : (updateOrder env s id (.ok order)).resp.status = StatusOK) :
    ((updateOrder env s id (.ok order)).store.itemsOf id).length = order.Items.length ∧
      ∀ r ∈ (updateOrder env s id (.ok order)).store.itemsOf id,
        ∀ r0 ∈ s.itemsOf id, r.id ≠ r0.id := by
  rcases updateOrder_cases env s id (.ok order) with ⟨order1, hb, -, -, hst, -⟩ | ⟨-, hs, -⟩
  · simp only [Except.ok.injEq] at hb
    subst hb
    have hitems : (updateOrder env s id (.ok order)).store.itemsOf id =
        newItemRows s.nextItemId id order.Items := by
      rw [hst]
      simp only [Store.itemsOf, Store.updated, List.filter_append, filter_eq_of_filter_ne,
        filter_eq_newItemRows, List.nil_append]
    rw [hitems]
    refine ⟨newItemRows_length _ _ _, ?_⟩
    intro r hr r0 hr0
    have h1 := newItemRows_id_ge hr
    have h2 := hwf.2.1 r0 (List.mem_of_mem_filter hr0)
    omega
  · exact absurd hok (status_ok_ne_error hs)

/-- Instance of C3: order 1 of the store holding Bob's order (items 1 and 2)
is updated with Alice's one-item payload. -/
theorem update_replaces_items_witness :
    storeBob.WF ∧ (updateOrder Env.ok storeBob 1 (.ok alice)).resp.status = StatusOK ∧
      ((updateOrder Env.ok storeBob 1 (.ok alice)).store.itemsOf 1).length = 1 :=
  ⟨by decide, by decide,
    (update_replaces_items Env.ok storeBob 1 alice (by decide) (by decide)).1⟩

theorem Store.WF_fresh_order {s : Store} (h : s.WF) :
    s.orders.filter (fun o => o.id == s.nextOrderId) = [] := by
  rw [List.filter_eq_nil_iff]
  intro o ho
  have := h.1 o ho
  simp only [beq_iff_eq]
  omega

theorem Store.WF_fresh_items {s : Store} (h : s.WF) :
    s.items.filter (fun i => i.order_id == s.nextOrderId) = [] := by
  rw [List.filter_eq_nil_iff]
  intro i hi
  obtain ⟨o, ho, hoid⟩ := h.2.2 i hi
  have := h.1 o ho
  simp only [beq_iff_eq]
  omega

/-- Round trip when the database layer does not fail under Get: if Create of a
payload succeeds and the two queries of the following Get meet no error, Get
of the generated identifier (the value of the `AUTO_INCREMENT` counter of
`orders` before the call, which is what `LastInsertId` reported) answers 200
with that identifier, the payload's customer name and `orderedAt`, and items
that agree with the payload's items by (name, description, quantity). -/
theorem create_get_roundtrip (envC envG : Env) (s : Store) (order : Order)
    (hwf : s.WF) (hok : (createOrder envC s (.ok order)).resp.status = StatusOK)
    (hq0 : envG.query 0 = QueryEnv.clean) (hq1 : envG.query 1 = QueryEnv.clean) :
    ∃ o, getOrder envG (createOrder envC s (.ok order)).store s.nextOrderId
          = ⟨StatusOK, .order o⟩ ∧
      o.ID = s.nextOrderId ∧ o.CustomerName = order.CustomerName ∧
      o.OrderedAt = order.OrderedAt ∧
      (o.Items.map Item.triple).Perm (order.Items.map Item.triple) := by
  rcases createOrder_cases envC s (.ok order) with ⟨order1, hb, -, -, hst⟩ | ⟨-, hs, -⟩
  · simp only [Except.ok.injEq] at hb
    subst hb
    rw [hst]
    have hrows : (s.created order).orders.filter (fun o => o.id == s.nextOrderId) =
        [{ id := s.nextOrderId, customer_name := order.CustomerName,
           ordered_at := order.OrderedAt }] := by
      simp [Store.created, List.filter_append, Store.WF_fresh_order hwf, List.filter_cons]
    have hitems : (s.created order).itemsOf s.nextOrderId =
        newItemRows s.nextItemId s.nextOrderId order.Items := by
      simp only [Store.itemsOf, Store.created, List.filter_append, Store.WF_fresh_items hwf,
        filter_eq_newItemRows, List.nil_append]
    refine ⟨{ scanOrder { id := s.nextOrderId, customer_name := order.CustomerName,
                          ordered_at := order.OrderedAt } with
              Items := (newItemRows s.nextItemId s.nextOrderId order.Items).map scanItem },
      ?_, rfl, rfl, rfl, ?_⟩
    · simp [getOrder, hrows, hq0, hq1, queryRow_clean, scanOrder, hitems, QueryEnv.clean_issue,
        QueryEnv.clean_rows, scanItems_clean, Order.zero]
    · simp only [List.map_map]
      rw [newItemRows_triples]
  · exact absurd hok (status_ok_ne_error hs)

/-- C2 (round trip) fails on the code.  Create of Bob's two-item payload on the
store holding Bob's first order succeeds and generates identifier 2; when
reading the rows of the items query of the following Get ends with an error
after the first row, Get still answers 200, with one item (Bolt) instead of the
payload's two: `rowsItems.Err()` is never consulted. -/
theorem get_after_create_ignores_iteration_error :
    (createOrder Env.ok storeBob (.ok bob)).resp = createdMsg ∧
      storeBob.nextOrderId = 2 ∧
      (envItemsCutShort.query 0).issue = none ∧
      (envItemsCutShort.query 0).rows = .none ∧
      (envItemsCutShort.query 1).issue = none ∧
      (envItemsCutShort.query 1).rows = .iterFails 1 "unexpected EOF" ∧
      getOrder envItemsCutShort (createOrder Env.ok storeBob (.ok bob)).store 2 =
        ⟨StatusOK, .order { Order.zero with
            ID := 2, CustomerName := "Bob", OrderedAt := "2024-02-02",
            Items := [{ Item.zero with ID := 3, Name := "Bolt", Description := "m4",
                                       Quantity := 10 }] }⟩ ∧
      bob.Items.map Item.triple = [("Bolt", "m4", 10), ("Nut", "m4", 10)] :=
  ⟨by decide, rfl, rfl, rfl, rfl, rfl, by decide, by decide⟩

theorem getOrder_cases (env : Env) (s : Store) (id : Int) :
    (∃ o, getOrder env s id = ⟨StatusOK, .order o⟩ ∧
        (∃ row ∈ s.orders, row.id = id ∧ o.ID = row.id) ∧
        ∀ it ∈ o.Items, ∃ r ∈ s.items, r.order_id = o.ID ∧ it = scanItem r) ∨
      ∃ e, getOrder env s id = ⟨StatusInternalServerError, .error e⟩ := by
  unfold getOrder
  split
  · exact Or.inr ⟨_, rfl⟩
  · next row hrow =>
    have hmem := queryRow_mem hrow
    simp only [List.mem_filter, beq_iff_eq] at hmem
    simp only
    split
    · exact Or.inr ⟨_, rfl⟩
    · split
      · exact Or.inr ⟨_, rfl⟩
      · next items hitems =>
        refine Or.inl ⟨_, rfl, ⟨row, hmem.1, hmem.2, rfl⟩, ?_⟩
        intro it hit
        rcases scanItems_mem hitems it hit with hacc | ⟨r, hr, heq⟩
        · simp [scanOrder, Order.zero] at hacc
        · simp only [Store.itemsOf, List.mem_filter, beq_iff_eq] at hr
          exact ⟨r, hr.1, hr.2, heq⟩

theorem getOrdersLoop_items {env : Env} {s : Store} {k : Nat} {rows : List OrderRow}
    {acc os : List Order} (h : getOrdersLoop env s k rows acc = .ok os) :
    ∀ o ∈ os, o ∈ acc ∨ ∀ it ∈ o.Items, ∃ r ∈ s.items, r.order_id = o.ID ∧ it = scanItem r := by
  induction rows generalizing k acc with
  | nil =>
    simp only [getOrdersLoop, Except.ok.injEq] at h
    subst h
    intro o ho
    exact Or.inl ho
  | cons row rest ih =>
    simp only [getOrdersLoop] at h
    split at h
    · simp only [Except.ok.injEq] at h
      subst h
      intro o ho
      exact Or.inl ho
    · split at h
      · cases h
      · split at h
        · cases h
        · split at h
          · cases h
          · next items hitems =>
            intro o ho
            rcases ih h o ho with hacc | hnew
            · rcases List.mem_append.mp hacc with hacc | hlast
              · exact Or.inl hacc
              · right
                simp only [List.mem_singleton] at hlast
                subst hlast
                intro it hit
                rcases scanItems_mem hitems it hit with hacc | ⟨r, hr, heq⟩
                · simp [scanOrder, Order.zero] at hacc
                · simp only [Store.itemsOf, List.mem_filter, beq_iff_eq] at hr
                  exact ⟨r, hr.1, hr.2, heq⟩
            · exact Or.inr hnew

theorem getOrders_cases (env : Env) (s : Store) :
    (∃ os, getOrders env s = ⟨StatusOK, .orders os⟩ ∧
        ∀ o ∈ os, ∀ it ∈ o.Items, ∃ r ∈ s.items, r.order_id = o.ID ∧ it = scanItem r) ∨
      ∃ e, getOrders env s = ⟨StatusInternalServerError, .error e⟩ := by
  unfold getOrders
  split
  · exact Or.inr ⟨_, rfl⟩
  · split
    · exact Or.inr ⟨_, rfl⟩
    · next os hos =>
      refine Or.inl ⟨os, rfl, ?_⟩
      intro o ho
      rcases getOrdersLoop_items hos o ho with hacc | hnew
      · cases hacc
      · exact hnew

theorem getOrdersLoop_clean (env : Env) (s : Store) (hclean : ∀ k, env.query k = QueryEnv.clean)
    (k : Nat) (rows : List OrderRow) (acc : List Order) :
    getOrdersLoop env s k rows acc =
      .ok (acc ++ rows.map (fun row =>
        { scanOrder row with Items := (s.itemsOf row.id).map scanItem })) := by
  induction rows generalizing k acc with
  | nil => simp [getOrdersLoop]
  | cons row rest ih =>
    simp [getOrdersLoop, hclean, QueryEnv.clean_issue, QueryEnv.clean_rows, RowsFault.stopsAt,
      RowsFault.scanErr, scanItems_clean, ih, scanOrder, Order.zero]

/-- When no query of the request meets an error, List answers 200 with every
order row of the store, in row order, each with all its item rows. -/
theorem getOrders_clean (env : Env) (s : Store) (hclean : ∀ k, env.query k = QueryEnv.clean) :
    getOrders env s =
      ⟨StatusOK, .orders (s.orders.map (fun row =>
        { scanOrder row with Items := (s.itemsOf row.id).map scanItem }))⟩ := by
  simp [getOrders, hclean, QueryEnv.clean_issue, getOrdersLoop_clean env s hclean]

/-- C5 as stated fails: Get of order 1 on the store holding Bob's order
succeeds and returns items whose `OrderID` field differs from the order's
`ID`. -/
theorem returned_item_orderID_unset :
    ∃ o, getOrder Env.ok storeBob 1 = ⟨StatusOK, .order o⟩ ∧ o.ID = 1 ∧
      ∃ it ∈ o.Items, it.OrderID = 0 ∧ it.OrderID ≠ o.ID :=
  ⟨_, rfl, rfl, scanItem boltRow, by decide, rfl, by decide⟩

/-- C5 as amended (referential completeness).  Every item attached to an order
returned by a successful Get or by List was read from an item row of the store
whose `order_id` equals the order's `ID`; the item's own `OrderID` field is not
read from the store and holds its zero value. -/
theorem returned_items_belong_to_order (env : Env) (s : Store) (id : Int) :
    (∀ o, getOrder env s id = ⟨StatusOK, .order o⟩ →
        ∀ it ∈ o.Items, it.OrderID = 0 ∧ ∃ r ∈ s.items, r.order_id = o.ID ∧ it = scanItem r) ∧
      (∀ os, getOrders env s = ⟨StatusOK, .orders os⟩ →
        ∀ o ∈ os, ∀ it ∈ o.Items,
          it.OrderID = 0 ∧ ∃ r ∈ s.items, r.order_id = o.ID ∧ it = scanItem r) := by
  refine ⟨?_, ?_⟩
  · intro o ho it hit
    rcases getOrder_cases env s id with ⟨o1, ho1, -, hitems⟩ | ⟨e, he⟩
    · rw [ho1] at ho
      simp only [Response.mk.injEq, Body.order.injEq, true_and] at ho
      subst ho
      obtain ⟨r, hr, hid, heq⟩ := hitems it hit
      exact ⟨by rw [heq]; rfl, r, hr, hid, heq⟩
    · rw [he] at ho
      cases ho
  · intro os hos o ho it hit
    rcases getOrders_cases env s with ⟨os1, hos1, hitems⟩ | ⟨e, he⟩
    · rw [hos1] at hos
      simp only [Response.mk.injEq, Body.orders.injEq, true_and] at hos
      subst hos
      obtain ⟨r, hr, hid, heq⟩ := hitems o ho it hit
      exact ⟨by rw [heq]; rfl, r, hr, hid, heq⟩
    · rw [he] at hos
      cases hos

/-- Instance of C5 as amended: the items returned by Get of order 1 on the
store holding Bob's order. -/
theorem returned_items_belong_to_order_witness :
    getOrder Env.ok storeBob 1 =
        ⟨StatusOK, .order { scanOrder bobRow with
                              Items := storeBob.items.map scanItem }⟩ ∧
      ∀ it ∈ storeBob.items.map scanItem,
        it.OrderID = 0 ∧ ∃ r ∈ storeBob.items, r.order_id = 1 ∧ it = scanItem r :=
  ⟨rfl, (returned_items_belong_to_order Env.ok storeBob 1).1 _ rfl⟩

/-- C6 as stated fails: on the empty store, which holds no order 7, an Update
of order 7 with Alice's one-item payload, with no failure of the database
layer, is answered with status 500: the item insert violates the foreign
key. -/
theorem update_missing_order_with_items_fails :
    Store.empty.orders.any (fun o => o.id == 7) = false ∧
      (updateOrder Env.ok Store.empty 7 (.ok alice)).resp =
        ⟨StatusInternalServerError, .error fkError⟩ :=
  ⟨by decide, by decide⟩

/-- C6 as amended.  For an identifier that matches no order row and a bound
payload: when the payload has no items and no call into the database layer
fails, Update answers 200 with its success message; when the payload has at
least one item, Update answers 500 with an error body and leaves the rows of
the store as they were, since the foreign key rejects the item insert. -/
theorem update_missing_order (env : Env) (s : Store) (id : Int) (order : Order)
    (hmiss : s.orders.any (fun o => o.id == id) = false) :
    (order.Items = [] → env.begin = none → env.exec 0 = none → env.exec 1 = none →
        env.commit = none →
        (updateOrder env s id (.ok order)).resp = updatedMsg) ∧
      (order.Items ≠ [] →
        (updateOrder env s id (.ok order)).resp.status = StatusInternalServerError ∧
        (updateOrder env s id (.ok order)).resp.body.isError = true ∧
        (updateOrder env s id (.ok order)).store.visible = s.visible) := by
  refine ⟨?_, ?_⟩
  · intro hnil hb h0 h1 hc
    simp [updateOrder, dbBegin, Tx.exec, Store.run, insertItems, Tx.commit, Tx.respond,
      hnil, hb, h0, h1, hc, updatedMsg]
  · intro hne
    rcases updateOrder_cases env s id (.ok order) with ⟨order1, hb, -, -, -, hfk⟩ |
      ⟨he, hs, hv, -, -, h400, -⟩
    · simp only [Except.ok.injEq] at hb
      subst hb
      rw [hfk hne] at hmiss
      cases hmiss
    · refine ⟨?_, he, hv⟩
      rcases hs with hs | hs
      · obtain ⟨e, he2⟩ := h400.mp hs
        cases he2
      · exact hs

/-- Instance of C6 as amended: on the empty store, Update of order 7 succeeds
with Carol's payload without items and fails with Alice's one-item payload. -/
theorem update_missing_order_witness :
    Store.empty.orders.any (fun o => o.id == 7) = false ∧
      (updateOrder Env.ok Store.empty 7 (.ok carol)).resp = updatedMsg ∧
      (updateOrder Env.ok Store.empty 7 (.ok alice)).resp.status = StatusInternalServerError :=
  ⟨by decide,
    (update_missing_order Env.ok Store.empty 7 carol (by decide)).1 rfl rfl rfl rfl rfl,
    ((update_missing_order Env.ok Store.empty 7 alice (by decide)).2 (by decide)).1⟩

/-- C7 fails on the code.  A Create whose body binds (Alice's payload) and
whose order insert returns an error is answered with status 400, and so is one
whose item insert returns an error, although the failure is a database failure
and not a malformed body.  The sibling handlers report the same kind of failure
with status 500: Update for the identical `INSERT INTO items` statement, and
Delete for its statements. -/
theorem create_insert_failure_is_400 :
    (createOrder (envExecFails 0) Store.empty (.ok alice)).resp =
        ⟨StatusBadRequest, .error "boom"⟩ ∧
      (createOrder (envExecFails 0) Store.empty (.ok alice)).log =
        [⟨.begin, false⟩, ⟨.exec (.insertOrder "Alice" "2024-01-01"), true⟩,
         ⟨.rollback, false⟩] ∧
      (createOrder (envExecFails 1) Store.empty (.ok alice)).resp =
        ⟨StatusBadRequest, .error "boom"⟩ ∧
      (createOrder (envExecFails 1) Store.empty (.ok alice)).log =
        [⟨.begin, false⟩, ⟨.exec (.insertOrder "Alice" "2024-01-01"), false⟩,
         ⟨.lastInsertId, false⟩, ⟨.exec (.insertItem "Widget" "x" 2 1), true⟩,
         ⟨.rollback, false⟩] ∧
      (updateOrder (envExecFails 2) storeBob 1 (.ok alice)).resp =
        ⟨StatusInternalServerError, .error "boom"⟩ ∧
      (updateOrder (envExecFails 2) storeBob 1 (.ok alice)).log =
        [⟨.begin, false⟩, ⟨.exec (.updateOrder "Alice" "2024-01-01" 1), false⟩,
         ⟨.exec (.deleteItems 1), false⟩, ⟨.exec (.insertItem "Widget" "x" 2 1), true⟩,
         ⟨.rollback, false⟩] ∧
      (deleteOrder (envExecFails 0) storeBob 1).resp =
        ⟨StatusInternalServerError, .error "boom"⟩ :=
  ⟨by decide, by decide, by decide, by decide, by decide, by decide, by decide⟩

/-- The statuses the handlers send.  Every response of the five handlers is
either the success response or has a body of the form `{"error": <message>}`
with status 400 or 500.  Status 400 is sent exactly when the request body
failed to bind or, in Create only, when a statement returned an error; every
other error response carries status 500. -/
theorem error_status_classes (env : Env) (s : Store) (id : Int) (body : Except String Order) :
    (((createOrder env s body).resp = createdMsg ∧
          anyFailed (createOrder env s body).log = false) ∨
        ((createOrder env s body).resp.body.isError = true ∧
          ((createOrder env s body).resp.status = 400 ∨
            (createOrder env s body).resp.status = 500) ∧
          ((createOrder env s body).resp.status = 400 ↔
            ((∃ e, body = .error e) ∨ stmtFailed (createOrder env s body).log = true)))) ∧
      (((updateOrder env s id body).resp = updatedMsg ∧
          anyFailed (updateOrder env s id body).log = false) ∨
        ((updateOrder env s id body).resp.body.isError = true ∧
          ((updateOrder env s id body).resp.status = 400 ∨
            (updateOrder env s id body).resp.status = 500) ∧
          ((updateOrder env s id body).resp.status = 400 ↔ ∃ e, body = .error e))) ∧
      (((deleteOrder env s id).resp = deletedMsg ∧
          anyFailed (deleteOrder env s id).log = false) ∨
        ((deleteOrder env s id).resp.body.isError = true ∧
          (deleteOrder env s id).resp.status = 500)) ∧
      ((∃ o, getOrder env s id = ⟨StatusOK, .order o⟩) ∨
        ∃ e, getOrder env s id = ⟨StatusInternalServerError, .error e⟩) ∧
      ((∃ os, getOrders env s = ⟨StatusOK, .orders os⟩) ∨
        ∃ e, getOrders env s = ⟨StatusInternalServerError, .error e⟩) := by
  refine ⟨?_, ?_, ?_, ?_, ?_⟩
  · rcases createOrder_cases env s body with ⟨_, -, hr, hl, -⟩ | ⟨he, hs, -, -, -, h400, -⟩
    · exact Or.inl ⟨hr, hl⟩
    · exact Or.inr ⟨he, hs, h400⟩
  · rcases updateOrder_cases env s id body with ⟨_, -, hr, hl, -, -⟩ | ⟨he, hs, -, -, -, h400, -⟩
    · exact Or.inl ⟨hr, hl⟩
    · exact Or.inr ⟨he, hs, h400⟩
  · rcases deleteOrder_cases env s id with ⟨hr, hl, -⟩ | ⟨he, hs, -⟩
    · exact Or.inl ⟨hr, hl⟩
    · exact Or.inr ⟨he, hs⟩
  · rcases getOrder_cases env s id with ⟨o, ho, -⟩ | h
    · exact Or.inl ⟨o, ho⟩
    · exact Or.inr h
  · rcases getOrders_cases env s with ⟨os, hos, -⟩ | h
    · exact Or.inl ⟨os, hos⟩
    · exact Or.inr h

/-- C8 fails on the code: when reading the rows of the items query of order 1
ends with an error after the first row, List still answers 200, with order 1
carrying one item although the store holds two item rows for it. -/
theorem list_ignores_iteration_error :
    (envItemsCutShort.query 1).rows = .iterFails 1 "unexpected EOF" ∧
      getOrders envItemsCutShort storeBob =
        ⟨StatusOK, .orders [{ scanOrder bobRow with Items := [scanItem boltRow] }]⟩ ∧
      storeBob.itemsOf 1 = [boltRow, nutRow] :=
  ⟨rfl, by decide, by decide⟩

end OrderService
